import Mathlib

/-!
Shallow embedding of the core of a small RESP (Redis-protocol) key-value
server written in Rust, together with proofs checking the repository's
specification against the code.

The embedded sources are `src/kv_store.rs` and `src/protocol.rs`:
  * `KvItem`, `KvStore::insert`, `KvStore::get_clone`, `KvStore::do_action`;
  * `Request::read_command` and `Command::from_str` (the frame reader);
  * `Response::write`, `Response::process_command`, `Response::queue_command`,
    `Response::exec_command` (the session state machine and command handlers).

Modelling conventions:
  * Rust `Instant` is a natural number; `Instant::now()` is an explicit
    `now : Nat` parameter threaded to the functions that read the clock.
  * Rust `String` payloads are Lean `String`s; `len()` (a byte length in
    Rust) is modelled by `String.length`, which agrees on ASCII data.
  * The `HashMap<String, KvItem>` is an association list with at most one
    binding per key (`storeGet` / `storeInsert`).
  * A Rust panic (`todo!`, out-of-bounds index) and an `anyhow::Error`
    returned with `?` both abort the session; both are modelled as the
    `.error` case of `Except String`.
  * The `FnOnce(&str, Option<&mut KvItem>)` callback of `do_action` is a
    pure function receiving the key, the looked-up item and a state (the
    closure's captured environment); it returns the updated state and the
    final value of the `&mut` cell, which `doAction` writes back to the map.
  * `BufWriter` buffering: every write appends to the session buffer and
    `send` flushes it; each embedded handler returns the chunk it appends,
    and `processCommand` returns the concatenation flushed by its final
    `send()` call.
-/

/-! ## Keyspace data model (`src/kv_store.rs`) -/

/-- Embeds `KvItem { val: String, expire_at: Option<Instant> }`. -/
structure KvItem where
  val : String
  expireAt : Option Nat
  deriving Repr, DecidableEq

/-- Embeds `KvItem::new(val, expire_mills)`: the optional expiry instant is
`Instant::now() + Duration::from_millis(mills)`. -/
def KvItem.new (val : String) (expireMills : Option Nat) (now : Nat) : KvItem :=
  { val := val, expireAt := expireMills.map (fun mills => now + mills) }

/-- The shared `HashMap<String, KvItem>` as an association list. -/
def Store := List (String × KvItem)

instance : DecidableEq Store := by
  unfold Store
  infer_instance

/-- Embeds `HashMap::get` / `get_mut`: the first binding of the key, if any. -/
def storeGet : Store → String → Option KvItem
  | [], _ => none
  | (k, v) :: rest, key => if k = key then some v else storeGet rest key

/-- Embeds `HashMap::insert`: replace the binding of the key, or append one. -/
def storeInsert : Store → String → KvItem → Store
  | [], key, item => [(key, item)]
  | (k, v) :: rest, key, item =>
    if k = key then (key, item) :: rest else (k, v) :: storeInsert rest key item

/-- Embeds `KvStore::get_clone`: return the item only if it exists and
either has no expiry or its expiry is strictly in the future. -/
def getClone (items : Store) (key : String) (now : Nat) : Option KvItem :=
  match storeGet items key with
  | some v =>
    match v.expireAt with
    | some exp => if now < exp then some v else none
    | none => some v
  | none => none

/-- Embeds `KvStore::do_action`.  The callback `cb` receives the key and
`Option KvItem` (the `Option<&mut KvItem>` argument) together with a state
`s` of type `σ` standing for the closure's captured environment; it returns
the new state and the final contents of the `&mut` cell, written back to
the map.  Returns the `bool` result, the final state and the final map.

Control flow copied from the source: a present item whose `expire_at` is
`Some` and still in the future gets the callback and `true`; an absent key
gets the callback (with `none`) and `true`; a present item that is expired
*or has no expiry at all* falls through to `return false` with no callback
invocation. -/
def doAction {σ : Type} (items : Store) (now : Nat) (key : String)
    (cb : String → Option KvItem → σ → σ × Option KvItem) (s : σ) :
    Bool × σ × Store :=
  match storeGet items key with
  | some v =>
    match v.expireAt with
    | some exp =>
      if now < exp then
        let r := cb key (some v) s
        (true, r.1, storeInsert items key (r.2.getD v))
      else
        (false, s, items)
    | none => (false, s, items)
  | none =>
    let r := cb key none s
    (true, r.1, items)

/-! ## RESP reply encodings (`Response::write`, `src/protocol.rs`) -/

/-- Embeds `enum ResponseType`. -/
inductive ResponseType where
  | simpleString (content : String)
  | bulkString (content : String)
  | nullBulkString
  | integer (num : Int)
  | simpleError (content : String)
  | arrayHeader (cnt : Nat)

/-- Embeds `Response::write`: the chunk appended to the outbound buffer. -/
def respWrite : ResponseType → String
  | .simpleString content => "+" ++ content ++ "\r\n"
  | .bulkString content => "$" ++ toString content.length ++ "\r\n" ++ content ++ "\r\n"
  | .nullBulkString => "$-1\r\n"
  | .integer num => ":" ++ toString num ++ "\r\n"
  | .simpleError content => "-" ++ content ++ "\r\n"
  | .arrayHeader cnt => "*" ++ toString cnt ++ "\r\n"

/-! ## Commands and server info -/

/-- Embeds `Command { name: String, args: Vec<String> }`. -/
structure Command where
  name : String
  args : List String
  deriving Repr, DecidableEq

/-- Embeds `ServerInfo`; `role` holds the string displayed for
`ServerRole` (`"master"` or `"slave"`). -/
structure ServerInfo where
  id : String
  port : Nat
  role : String
  replicationOffset : Nat

/-- Embeds `ServerInfo::to_string`. -/
def ServerInfo.display (info : ServerInfo) : String :=
  "# Replication\r\nrole:" ++ info.role ++ "\r\nmaster_repl_offset:" ++
    toString info.replicationOffset ++ "\r\nmaster_replid:" ++ info.id

/-! ## Rust integer parsing (`str::parse::<u64>` / `::<i64>` / `::<usize>`)

`parse` accepts an optional single leading `+` (or a `-` for `i64`),
then one or more ASCII digits, and fails on overflow. -/

/-- ASCII decimal digit test (`'0' ≤ c ≤ '9'`). -/
def isDigitC (c : Char) : Bool := 48 ≤ c.toNat && c.toNat ≤ 57

/-- Accumulating decimal evaluation of a digit list. -/
def digitsValGo : Nat → List Char → Option Nat
  | acc, [] => some acc
  | acc, c :: rest =>
    if isDigitC c then digitsValGo (acc * 10 + (c.toNat - 48)) rest else none

/-- Value of a nonempty all-digit character list, `none` otherwise. -/
def digitsVal? : List Char → Option Nat
  | [] => none
  | c :: rest => if isDigitC c then digitsValGo (c.toNat - 48) rest else none

/-- Embeds `str::parse::<u64>()` (and `::<usize>` on a 64-bit host) on a
character list: optional `+`, digits, overflow check. -/
def rustParseU64L? (l : List Char) : Option Nat :=
  let core := match l with
    | [] => none
    | c :: rest => if c = '+' then digitsVal? rest else digitsVal? (c :: rest)
  match core with
  | some v => if v < 2 ^ 64 then some v else none
  | none => none

/-- Embeds `str::parse::<u64>()` on a string. -/
def rustParseU64? (s : String) : Option Nat := rustParseU64L? s.toList

/-- Embeds `str::parse::<i64>()`: optional sign, digits, range check. -/
def rustParseI64? (s : String) : Option Int :=
  match s.toList with
  | [] => none
  | c :: rest =>
    if c = '-' then
      match digitsVal? rest with
      | some v => if (v : Int) ≤ 2 ^ 63 then some (-(v : Int)) else none
      | none => none
    else if c = '+' then
      match digitsVal? rest with
      | some v => if v < 2 ^ 63 then some (v : Int) else none
      | none => none
    else
      match digitsVal? (c :: rest) with
      | some v => if v < 2 ^ 63 then some (v : Int) else none
      | none => none

/-- Wrapping of an integer into the signed 64-bit range: the semantics of
Rust `i64` overflow in a release build (`num += 1` two's-complement wraps);
a debug build panics at the single out-of-range point instead, so the
theorems below assert increment results only where the two profiles agree
(the increment stays in range and `wrapI64` is the identity). -/
def wrapI64 (v : Int) : Int := (v + 2 ^ 63) % 2 ^ 64 - 2 ^ 63

/-- Embeds `str::to_uppercase()`, restricted to the ASCII data the server
handles (`Char.toUpper` maps `a`–`z` and fixes everything else). -/
def rustToUppercase (s : String) : String :=
  String.mk (s.toList.map Char.toUpper)

/-- Embeds `str::to_lowercase()`, restricted to ASCII likewise. -/
def rustToLowercase (s : String) : String :=
  String.mk (s.toList.map Char.toLower)

/-! ## Session state machine (`Response`, `src/protocol.rs`) -/

/-- Embeds `enum ResponseState { Exec, Queue }`. -/
inductive RespState where
  | exec
  | queue
  deriving Repr, DecidableEq

/-- The mutable fields of `Response` the state machine uses: `state` and
the transaction queue `commands`.  The outbound buffer is represented by
the string chunks the functions below return. -/
structure Session where
  state : RespState
  commands : Option (List Command)
  deriving Repr, DecidableEq

/-- The `get_action` closure of the `GET` handler: captures the outbound
buffer (`σ = String`) and appends a bulk string or a null bulk string;
never writes through the `&mut` item. -/
def getAction (_key : String) (item : Option KvItem) (buf : String) :
    String × Option KvItem :=
  match item with
  | some it => (buf ++ respWrite (.bulkString it.val), some it)
  | none => (buf ++ respWrite .nullBulkString, none)

/-- The `incr_action` closure of the `INCR` handler: captures
`incr_result` (`σ = Except String Int`, initially `Ok(0)`) and overwrites
it; never writes through the `&mut` item.  The `num += 1` on `i64` wraps
via `wrapI64` (release semantics; a debug build panics exactly when the
wrap is not the identity). -/
def incrAction (_key : String) (item : Option KvItem) (_res : Except String Int) :
    Except String Int × Option KvItem :=
  match item with
  | some it =>
    (match rustParseI64? it.val with
     | some num => .ok (wrapI64 (num + 1))
     | none => .error "ERR value is not an integer or out of range",
     some it)
  | none => (.ok 1, none)

/-- Embeds `Response::exec_command`.  Returns the chunk appended to the
outbound buffer and the updated keyspace; `.error` is a returned
`anyhow::Error` or a `todo!` panic, both of which kill the session. -/
def execCommand (cmd : Command) (st : RespState) (store : Store) (now : Nat)
    (info : ServerInfo) : Except String (String × Store) :=
  if st ≠ RespState.exec then .error "invalid state for exec command" else
  match cmd.name with
  | "COMMAND" => .ok (respWrite (.arrayHeader 0), store)
  | "PING" => .ok (respWrite (.simpleString "PONG"), store)
  | "ECHO" =>
    match cmd.args with
    | [] => .ok (respWrite (.simpleError "ERR wrong number of arguments for 'echo' command"), store)
    | a0 :: _ => .ok (respWrite (.bulkString a0), store)
  | "SET" =>
    if cmd.args.length < 2 then
      .ok (respWrite (.simpleError "ERR wrong number of arguments for 'set' command"), store)
    else
      let key := cmd.args.getD 0 ""
      let val := cmd.args.getD 1 ""
      if cmd.args.length > 2 then
        match rustToUppercase (cmd.args.getD 2 "") with
        | "PX" =>
          match (cmd.args.get? 3).bind (fun s => rustParseU64? s) with
          | some expireMills =>
            .ok (respWrite (.simpleString "OK"),
                 storeInsert store key (KvItem.new val (some expireMills) now))
          | none => .ok (respWrite (.simpleError "ERR invalid expire time"), store)
        | _ => .ok (respWrite (.simpleError "ERR unknown option for 'set' command"), store)
      else
        .ok (respWrite (.simpleString "OK"), storeInsert store key (KvItem.new val none now))
  | "GET" =>
    match cmd.args with
    | [] => .ok (respWrite (.simpleError "ERR wrong number of arguments for 'get' command"), store)
    | key :: _ =>
      let r := doAction store now key getAction ""
      .ok (r.2.1, r.2.2)
  | "INCR" =>
    match cmd.args with
    | [] => .ok (respWrite (.simpleError "ERR wrong number of arguments for 'incr' command"), store)
    | key :: _ =>
      let r := doAction store now key incrAction (Except.ok 0)
      match r.2.1 with
      | .ok num =>
        .ok (respWrite (.integer num),
             storeInsert r.2.2 key (KvItem.new (toString num) none now))
      | .error e => .ok (respWrite (.simpleError e), r.2.2)
  | "MULTI" => .ok (respWrite (.simpleString "OK"), store)
  | "EXEC" => .ok (respWrite (.simpleError "ERR EXEC without MULTI"), store)
  | "DISCARD" => .ok (respWrite (.simpleError "ERR DISCARD without MULTI"), store)
  | "INFO" =>
    match cmd.args with
    | [] => .error "handle info command without args"
    | a0 :: _ =>
      let sect := rustToLowercase a0
      if sect = "replication" then
        .ok (respWrite (.bulkString info.display), store)
      else
        .error ("other section for INFO command: " ++ sect)
  | _ => .ok (respWrite (.simpleError "ERR unknown command"), store)

/-- Embeds `Response::queue_command`: never sees the keyspace (its Rust
signature takes only `&mut self` and the command). -/
def queueCommand (cmd : Command) (st : RespState) (cmds : Option (List Command)) :
    Except String (String × Option (List Command)) :=
  if st ≠ RespState.queue then .error "invalid state for queue command" else
  if cmd.name = "EXEC" then
    match cmds with
    | some l => .ok (respWrite (.arrayHeader l.length), cmds)
    | none => .ok (respWrite (.arrayHeader 0), cmds)
  else if cmd.name = "DISCARD" then .ok (respWrite (.simpleString "OK"), cmds)
  else
    match cmds with
    | some l => .ok (respWrite (.simpleString "QUEUED"), some (l ++ [cmd]))
    | none => .error "Commands list not initialized"

/-- The `EXEC` replay loop: `for command in commands { self.exec_command(..)? }`,
run with `state` already reset to `Exec`; outputs accumulate in the same
buffer. -/
def replay (cmds : List Command) (store : Store) (now : Nat) (info : ServerInfo) :
    Except String (String × Store) :=
  match cmds with
  | [] => .ok ("", store)
  | c :: rest =>
    match execCommand c .exec store now info with
    | .ok (out, store') =>
      match replay rest store' now info with
      | .ok (out', store'') => .ok (out ++ out', store'')
      | .error e => .error e
    | .error e => .error e

/-- Embeds `Response::process_command`: one full turn of the session state
machine, ending in `send()`.  Returns the new session, the new keyspace and
the bytes flushed by `send` (empty output is flushed as zero bytes). -/
def processCommand (cmd : Command) (sess : Session) (store : Store) (now : Nat)
    (info : ServerInfo) : Except String (Session × Store × String) :=
  match sess.state with
  | .exec =>
    if cmd.name = "MULTI" then
      match execCommand cmd .exec store now info with
      | .ok (out, store') => .ok ({ state := .queue, commands := some [] }, store', out)
      | .error e => .error e
    else
      match execCommand cmd .exec store now info with
      | .ok (out, store') => .ok ({ state := .exec, commands := sess.commands }, store', out)
      | .error e => .error e
  | .queue =>
    if cmd.name = "EXEC" then
      match queueCommand cmd .queue sess.commands with
      | .ok (hdr, _) =>
        match sess.commands with
        | some q =>
          match replay q store now info with
          | .ok (out, store') => .ok ({ state := .exec, commands := none }, store', hdr ++ out)
          | .error e => .error e
        | none => .ok ({ state := .exec, commands := none }, store, hdr)
      | .error e => .error e
    else if cmd.name = "DISCARD" then
      match queueCommand cmd .queue sess.commands with
      | .ok (out, _) => .ok ({ state := .exec, commands := none }, store, out)
      | .error e => .error e
    else
      match queueCommand cmd .queue sess.commands with
      | .ok (out, cmds') => .ok ({ state := .queue, commands := cmds' }, store, out)
      | .error e => .error e

/-! ## Frame reader (`Request::read_command`, `Command::from_str`)

The inbound byte stream is a `List Char`; `BufRead::read_line` take a
maximal chunk up to and including the first `'\n'` (or up to end of
stream), returning zero bytes only at end of stream. -/

/-- Rust `char::is_whitespace` (the Unicode `White_Space` property). -/
def isWS (c : Char) : Bool :=
  (9 ≤ c.toNat && c.toNat ≤ 13) || c.toNat = 32 || c.toNat = 133 ||
  c.toNat = 160 || c.toNat = 5760 || (8192 ≤ c.toNat && c.toNat ≤ 8202) ||
  c.toNat = 8232 || c.toNat = 8233 || c.toNat = 8239 || c.toNat = 8287 ||
  c.toNat = 12288

/-- Embeds `BufRead::read_line`: the consumed line (with its `'\n'` if one was
found) and the remaining stream. -/
def readLine : List Char → List Char × List Char
  | [] => ([], [])
  | c :: rest =>
    if c = '\n' then ([c], rest)
    else
      let r := readLine rest
      (c :: r.1, r.2)

/-- Embeds `str::trim_start()` on a character list. -/
def trimStartL (l : List Char) : List Char := l.dropWhile (fun c => isWS c)

/-- Embeds `str::trim_end()` on a character list. -/
def trimEndL (l : List Char) : List Char :=
  (l.reverse.dropWhile (fun c => isWS c)).reverse

/-- Embeds `str::trim()` on a character list. -/
def rustTrimL (l : List Char) : List Char := trimEndL (trimStartL l)

/-- Worker for `split_whitespace`: `acc` holds the reversed current token. -/
def splitWSGo : List Char → List Char → List (List Char)
  | acc, [] => if acc = [] then [] else [acc.reverse]
  | acc, c :: rest =>
    if isWS c then
      if acc = [] then splitWSGo [] rest
      else acc.reverse :: splitWSGo [] rest
    else splitWSGo (c :: acc) rest

/-- Embeds `str::split_whitespace()`: the maximal whitespace-free runs. -/
def splitWS (l : List Char) : List (List Char) := splitWSGo [] l

/-- Embeds `Command::from_str`: trim the accumulated buffer, split on
whitespace, uppercase `parts[1]` as the name, keep `parts[2..]` as the
arguments (`parts[0]` is the array-header token).  The `parts[1]` index
panics when fewer than two parts exist. -/
def fromStr (buffer : List Char) : Except String Command :=
  match splitWS (rustTrimL buffer) with
  | _ :: p1 :: rest =>
    .ok { name := rustToUppercase (String.mk p1), args := rest.map String.mk }
  | _ => .error "index out of bounds: parts[1]"

/-- The element loop of `Request::read_command`: for each of `cnt`
elements read the `$`-length line, and unless the declared length is `0`
append one more line (the payload as read by `read_line`) to the buffer.
`.error` covers end-of-stream, a parse failure of the length, and the
`todo!` panic on a non-`$` leader. -/
def readElems : Nat → List Char → List Char → Except String (List Char × List Char)
  | 0, buffer, stream => .ok (buffer, stream)
  | k + 1, buffer, stream =>
    match readLine stream with
    | ([], _) => .error "Connection closed by client"
    | (c :: lineRest, rest) =>
      if c = '$' then
        match rustParseU64L? (trimEndL lineRest) with
        | some len =>
          if len = 0 then readElems k buffer rest
          else
            match readLine rest with
            | ([], _) => .error "Connection closed by client"
            | (payload, rest') => readElems k (buffer ++ payload) rest'
        | none => .error "invalid digit found in string"
      else .error "todo: Unsupported command format"

/-- Embeds `Request::read_command`: read the header line, parse the
element count from `buffer.trim_end()[1..]` (panicking when the trimmed
header is empty), run the element loop, then `Command::from_str` on the
accumulated buffer.  Returns the command and the unconsumed stream. -/
def readCommand (stream : List Char) : Except String (Command × List Char) :=
  match readLine stream with
  | ([], _) => .error "Connection closed by client"
  | (line, rest) =>
    match trimEndL line with
    | [] => .error "byte index 1 out of bounds"
    | _ :: hdrRest =>
      match rustParseU64L? hdrRest with
      | some lineCnt =>
        match readElems lineCnt line rest with
        | .ok (buffer, rest') =>
          match fromStr buffer with
          | .ok cmd => .ok (cmd, rest')
          | .error e => .error e
        | .error e => .error e
      | none => .error "invalid digit found in string"

/-! ## Well-formed RESP frames (spec-side encoder)

These definitions follow the specification's words for a well-formed
inbound frame (`*<N>\r\n` then `$<L>\r\n<L bytes>\r\n` per element); they
exist to state the parser round-trip property and are not part of the
embedded program. -/

/-- One decimal digit character. -/
def decDigit (n : Nat) : Char :=
  if n = 0 then '0' else if n = 1 then '1' else if n = 2 then '2'
  else if n = 3 then '3' else if n = 4 then '4' else if n = 5 then '5'
  else if n = 6 then '6' else if n = 7 then '7' else if n = 8 then '8'
  else '9'

/-- Decimal representation of a natural number, most significant first. -/
def natToDec (n : Nat) : List Char :=
  if _h : n < 10 then [decDigit n]
  else natToDec (n / 10) ++ [decDigit (n % 10)]
termination_by n
decreasing_by exact Nat.div_lt_self (by omega) (by omega)

/-- Literal `\r\n`. -/
def crlf : List Char := ['\r', '\n']

/-- A well-formed bulk-string element `$<L>\r\n<payload>\r\n`. -/
def encodeBulk (e : List Char) : List Char :=
  '$' :: (natToDec e.length ++ crlf ++ e ++ crlf)

/-- A well-formed array-of-bulk-strings frame. -/
def encodeFrame (elems : List (List Char)) : List Char :=
  '*' :: (natToDec elems.length ++ crlf ++ (elems.map encodeBulk).flatten)

/-- A concrete `ServerInfo` for closed evaluations. -/
def infoArb : ServerInfo :=
  { id := "0123456789abcdef0123456789abcdef01234567", port := 6379,
    role := "master", replicationOffset := 0 }

/-! ## Character and digit lemmas -/

theorem decDigit_isDigitC (n : Nat) : isDigitC (decDigit n) = true := by
  unfold decDigit
  repeat' split
  all_goals decide

theorem decDigit_toNat (n : Nat) (h : n < 10) : (decDigit n).toNat = 48 + n := by
  interval_cases n <;> decide

theorem isDigitC_not_isWS (c : Char) (h : isDigitC c = true) : isWS c = false := by
  simp only [isDigitC, Bool.and_eq_true, decide_eq_true_eq] at h
  simp [isWS]
  omega

theorem isDigitC_ne_nl (c : Char) (h : isDigitC c = true) : c ≠ '\n' := by
  intro hc
  subst hc
  exact absurd h (by decide)

theorem isDigitC_ne_plus (c : Char) (h : isDigitC c = true) : c ≠ '+' := by
  intro hc
  subst hc
  exact absurd h (by decide)

theorem not_isWS_ne_nl (c : Char) (h : isWS c = false) : c ≠ '\n' := by
  intro hc
  subst hc
  exact absurd h (by decide)

theorem natToDec_digits (n : Nat) : ∀ c ∈ natToDec n, isDigitC c = true := by
  induction n using Nat.strong_induction_on with
  | _ n ih =>
    rw [natToDec]
    split
    · intro c hc
      simp only [List.mem_singleton] at hc
      subst hc
      exact decDigit_isDigitC n
    · intro c hc
      rcases List.mem_append.mp hc with hc | hc
      · exact ih (n / 10) (Nat.div_lt_self (by omega) (by omega)) c hc
      · simp only [List.mem_singleton] at hc
        subst hc
        exact decDigit_isDigitC _

theorem natToDec_ne_nil (n : Nat) : natToDec n ≠ [] := by
  rw [natToDec]
  split
  · simp
  · simp

/-! ## `readLine` lemmas -/

theorem readLine_crlf (l r : List Char) (h : ∀ c ∈ l, c ≠ '\n') :
    readLine (l ++ '\r' :: '\n' :: r) = (l ++ ['\r', '\n'], r) := by
  induction l with
  | nil => rfl
  | cons c l' ih =>
    simp only [List.cons_append, readLine, if_neg (h c (List.mem_cons_self c l')),
      List.append_eq]
    rw [ih (fun x hx => h x (List.mem_cons_of_mem c hx))]

/-! ## Trim lemmas -/

theorem dropWhile_append_of_all (p : Char → Bool) (w t : List Char)
    (h : ∀ c ∈ w, p c = true) :
    List.dropWhile p (w ++ t) = List.dropWhile p t := by
  induction w with
  | nil => rfl
  | cons c w' ih =>
    simp only [List.cons_append, List.dropWhile_cons, h c (List.mem_cons_self c w'),
      if_pos]
    exact ih (fun x hx => h x (List.mem_cons_of_mem c hx))

theorem dropWhile_of_all_neg (p : Char → Bool) (l : List Char)
    (h : ∀ c ∈ l, p c = false) :
    List.dropWhile p l = l := by
  cases l with
  | nil => rfl
  | cons c t =>
    simp only [List.dropWhile_cons, h c (List.mem_cons_self c t)]
    simp

theorem trimEndL_append_ws (l w : List Char) (h : ∀ c ∈ w, isWS c = true) :
    trimEndL (l ++ w) = trimEndL l := by
  unfold trimEndL
  rw [List.reverse_append, dropWhile_append_of_all _ w.reverse _
    (fun c hc => h c (List.mem_reverse.mp hc))]

theorem trimEndL_no_ws (l : List Char) (h : ∀ c ∈ l, isWS c = false) :
    trimEndL l = l := by
  unfold trimEndL
  rw [dropWhile_of_all_neg _ _ (fun c hc => h c (List.mem_reverse.mp hc))]
  exact List.reverse_reverse l

theorem trimEndL_decomp (l : List Char) :
    ∃ w, l = trimEndL l ++ w ∧ ∀ c ∈ w, isWS c = true := by
  refine ⟨(l.reverse.takeWhile (fun c => isWS c)).reverse, ?_, ?_⟩
  · conv_lhs => rw [← List.reverse_reverse l,
      ← List.takeWhile_append_dropWhile (p := fun c => isWS c) (l := l.reverse)]
    rw [List.reverse_append]
    rfl
  · intro c hc
    exact List.mem_takeWhile_imp (List.mem_reverse.mp hc)

/-! ## `split_whitespace` lemmas -/

theorem splitWSGo_all_ws (w : List Char) (h : ∀ c ∈ w, isWS c = true) :
    ∀ acc, splitWSGo acc w = if acc = [] then [] else [acc.reverse] := by
  induction w with
  | nil => intro acc; rfl
  | cons c w' ih =>
    intro acc
    have hc := h c (List.mem_cons_self c w')
    have ih' := ih (fun x hx => h x (List.mem_cons_of_mem c hx))
    by_cases ha : acc = []
    · simp [splitWSGo, hc, ha, ih']
    · simp [splitWSGo, hc, ha, ih']

theorem splitWSGo_append_ws (w : List Char) (hw : ∀ c ∈ w, isWS c = true)
    (l : List Char) : ∀ acc, splitWSGo acc (l ++ w) = splitWSGo acc l := by
  induction l with
  | nil =>
    intro acc
    rw [List.nil_append, splitWSGo_all_ws w hw acc]
    rfl
  | cons c l' ih =>
    intro acc
    by_cases hc : isWS c = true
    · by_cases ha : acc = [] <;> simp [splitWSGo, hc, ha, ih]
    · simp [splitWSGo, hc, ih]

theorem splitWSGo_nonws (t : List Char) (ht : ∀ c ∈ t, isWS c = false) :
    ∀ acc r, splitWSGo acc (t ++ r) = splitWSGo (t.reverse ++ acc) r := by
  induction t with
  | nil => intro acc r; simp
  | cons c t' ih =>
    intro acc r
    have hc := ht c (List.mem_cons_self c t')
    have ih' := ih (fun x hx => ht x (List.mem_cons_of_mem c hx)) (c :: acc) r
    simp only [List.cons_append, splitWSGo, hc, Bool.false_eq_true, if_false,
      List.reverse_cons, List.append_assoc, List.singleton_append, List.append_eq,
      List.nil_append]
    exact ih'

theorem splitWSGo_dropWhile (l : List Char) :
    splitWSGo [] (l.dropWhile (fun c => isWS c)) = splitWSGo [] l := by
  induction l with
  | nil => rfl
  | cons c l' ih =>
    by_cases hc : isWS c = true
    · simp [List.dropWhile_cons, hc, ih, splitWSGo]
    · simp [List.dropWhile_cons, hc]

theorem splitWS_rustTrimL (l : List Char) : splitWS (rustTrimL l) = splitWS l := by
  obtain ⟨w, hw, hws⟩ := trimEndL_decomp (trimStartL l)
  have h1 : splitWSGo [] (trimEndL (trimStartL l)) = splitWSGo [] (trimStartL l) := by
    conv_rhs => rw [hw]
    exact (splitWSGo_append_ws w hws _ []).symm
  have h2 : splitWSGo [] (trimStartL l) = splitWSGo [] l := splitWSGo_dropWhile l
  unfold splitWS rustTrimL
  rw [h1, h2]

theorem splitWSGo_tokens (toks : List (List Char))
    (h : ∀ t ∈ toks, t ≠ [] ∧ ∀ c ∈ t, isWS c = false) :
    splitWSGo [] ((toks.map (fun t => t ++ crlf)).flatten) = toks := by
  induction toks with
  | nil => rfl
  | cons t ts ih =>
    obtain ⟨hne, hnws⟩ := h t (List.mem_cons_self t ts)
    have ih' := ih (fun x hx => h x (List.mem_cons_of_mem t hx))
    have hrev : t.reverse ≠ [] := by simpa using hne
    rw [List.map_cons, List.flatten_cons, List.append_assoc,
      splitWSGo_nonws t hnws [] (crlf ++ ((ts.map (fun t => t ++ crlf)).flatten)),
      List.append_nil]
    have e1 : crlf ++ ((ts.map (fun t => t ++ crlf)).flatten) =
        '\r' :: '\n' :: ((ts.map (fun t => t ++ crlf)).flatten) := rfl
    rw [e1]
    have s1 : splitWSGo t.reverse
        ('\r' :: '\n' :: ((ts.map (fun t => t ++ crlf)).flatten)) =
        t.reverse.reverse ::
          splitWSGo [] ('\n' :: ((ts.map (fun t => t ++ crlf)).flatten)) := by
      simp [splitWSGo, hrev, show isWS '\r' = true from by decide]
    have s2 : splitWSGo ([] : List Char)
        ('\n' :: ((ts.map (fun t => t ++ crlf)).flatten)) =
        splitWSGo [] ((ts.map (fun t => t ++ crlf)).flatten) := by
      simp [splitWSGo, show isWS '\n' = true from by decide]
    rw [s1, s2, List.reverse_reverse, ih']

/-! ## Decimal round-trip lemmas -/

theorem digitsValGo_append (acc : Nat) (l1 l2 : List Char) :
    digitsValGo acc (l1 ++ l2) =
      (digitsValGo acc l1).bind (fun v => digitsValGo v l2) := by
  induction l1 generalizing acc with
  | nil => rfl
  | cons c l' ih =>
    by_cases hc : isDigitC c = true
    · simp [digitsValGo, hc, ih]
    · simp [digitsValGo, hc]

theorem digitsValGo_natToDec (n : Nat) :
    ∀ acc, digitsValGo acc (natToDec n) =
      some (acc * 10 ^ (natToDec n).length + n) := by
  induction n using Nat.strong_induction_on with
  | _ n ih =>
    intro acc
    by_cases h : n < 10
    · rw [natToDec, dif_pos h]
      simp [digitsValGo, decDigit_isDigitC, decDigit_toNat n h]
    · have hlt : n / 10 < n := Nat.div_lt_self (by omega) (by omega)
      have hmod : n % 10 < 10 := Nat.mod_lt n (by omega)
      rw [natToDec, dif_neg h, digitsValGo_append, ih (n / 10) hlt acc]
      simp [digitsValGo, decDigit_isDigitC, decDigit_toNat (n % 10) hmod]
      have hp : (10 : Nat) ^ ((natToDec (n / 10)).length + 1) =
          10 ^ ((natToDec (n / 10)).length) * 10 := pow_succ 10 _
      rw [hp]
      ring_nf
      omega

theorem digitsVal?_eq_go (l : List Char) (h : l ≠ []) :
    digitsVal? l = digitsValGo 0 l := by
  cases l with
  | nil => exact absurd rfl h
  | cons c rest =>
    by_cases hc : isDigitC c = true
    · simp [digitsVal?, digitsValGo, hc]
    · simp [digitsVal?, digitsValGo, hc]

theorem digitsVal_natToDec (n : Nat) : digitsVal? (natToDec n) = some n := by
  rw [digitsVal?_eq_go _ (natToDec_ne_nil n), digitsValGo_natToDec n 0]
  simp

theorem rustParseU64L_natToDec (n : Nat) (h : n < 2 ^ 64) :
    rustParseU64L? (natToDec n) = some n := by
  obtain ⟨c, rest, hl⟩ := List.exists_cons_of_ne_nil (natToDec_ne_nil n)
  have hc : isDigitC c = true :=
    natToDec_digits n c (by rw [hl]; exact List.mem_cons_self _ _)
  have hcp : c ≠ '+' := isDigitC_ne_plus c hc
  have hv : digitsVal? (c :: rest) = some n := by rw [← hl]; exact digitsVal_natToDec n
  rw [hl]
  simp [rustParseU64L?, hcp, hv, h]
  omega

/-! ## `i64` range lemmas -/

theorem rustParseI64?_range (s : String) (v : Int)
    (h : rustParseI64? s = some v) : -(2 ^ 63) ≤ v ∧ v < 2 ^ 63 := by
  unfold rustParseI64? at h
  repeat' split at h
  all_goals simp_all
  all_goals omega

theorem wrapI64_eq_of_range (v : Int) (h1 : -(2 ^ 63) ≤ v) (h2 : v < 2 ^ 63) :
    wrapI64 v = v := by
  unfold wrapI64
  omega

/-! ## Frame-reader round-trip lemmas -/

theorem readElems_encode (elems : List (List Char)) (s : List Char)
    (h : ∀ e ∈ elems, (e ≠ [] ∧ ∀ c ∈ e, isWS c = false) ∧ e.length < 2 ^ 64) :
    ∀ buf, readElems elems.length buf (((elems.map encodeBulk).flatten) ++ s) =
      .ok (buf ++ ((elems.map (fun e => e ++ crlf)).flatten), s) := by
  induction elems with
  | nil => intro buf; simp [readElems]
  | cons e es ih =>
    intro buf
    obtain ⟨⟨hne, hnws⟩, hsz⟩ := h e (List.mem_cons_self e es)
    have ih' := ih (fun x hx => h x (List.mem_cons_of_mem e hx))
    obtain ⟨e0, e', rfl⟩ := List.exists_cons_of_ne_nil hne
    have hnl1 : ∀ c ∈ '$' :: natToDec (e0 :: e').length, c ≠ '\n' := by
      intro c hc
      rcases List.mem_cons.mp hc with hc | hc
      · subst hc; decide
      · exact isDigitC_ne_nl c (natToDec_digits _ c hc)
    have hnl2 : ∀ c ∈ e0 :: e', c ≠ '\n' :=
      fun c hc => not_isWS_ne_nl c (hnws c hc)
    have hstream : ((((e0 :: e') :: es).map encodeBulk).flatten) ++ s =
        ('$' :: natToDec (e0 :: e').length) ++ '\r' :: '\n' ::
          ((e0 :: e') ++ '\r' :: '\n' ::
            (((es.map encodeBulk).flatten) ++ s)) := by
      simp [encodeBulk, crlf, List.append_assoc]
    have hL : readLine (('$' :: natToDec (e0 :: e').length) ++ '\r' :: '\n' ::
        ((e0 :: e') ++ '\r' :: '\n' :: (((es.map encodeBulk).flatten) ++ s))) =
        ('$' :: (natToDec (e0 :: e').length ++ ['\r', '\n']),
         (e0 :: e') ++ '\r' :: '\n' :: (((es.map encodeBulk).flatten) ++ s)) :=
      readLine_crlf _ _ hnl1
    have hT : trimEndL (natToDec (e0 :: e').length ++ ['\r', '\n']) =
        natToDec (e0 :: e').length := by
      rw [trimEndL_append_ws _ ['\r', '\n'] (by decide)]
      exact trimEndL_no_ws _ (fun c hc => isDigitC_not_isWS c (natToDec_digits _ c hc))
    have hP : readLine (e0 :: (e' ++ '\r' :: '\n' ::
        (((es.map encodeBulk).flatten) ++ s))) =
        (e0 :: (e' ++ ['\r', '\n']), ((es.map encodeBulk).flatten) ++ s) :=
      readLine_crlf (e0 :: e') _ hnl2
    rw [List.length_cons, hstream, readElems, hL]
    simp only [List.cons_append, if_true]
    rw [hT, rustParseU64L_natToDec _ hsz]
    simp only []
    rw [if_neg (by simp)]
    rw [hP]
    simp [crlf, List.append_assoc, ih']

/-! ## Store lemmas -/

theorem storeGet_storeInsert (l : Store) (k : String) (a : KvItem) :
    storeGet (storeInsert l k a) k = some a := by
  induction l with
  | nil => simp [storeInsert, storeGet]
  | cons hd tl ih =>
    obtain ⟨k', v'⟩ := hd
    by_cases h : k' = k
    · simp [storeInsert, storeGet, h]
    · simp [storeInsert, storeGet, h, ih]

theorem storeInsert_storeInsert (l : Store) (k : String) (a b : KvItem) :
    storeInsert (storeInsert l k a) k b = storeInsert l k b := by
  induction l with
  | nil => simp [storeInsert]
  | cons hd tl ih =>
    obtain ⟨k', v'⟩ := hd
    by_cases h : k' = k
    · simp [storeInsert, h]
    · simp [storeInsert, h, ih]

/-! # Claim theorems -/

/-- C1: the claim states that from an empty keyspace `SET K V` (no PX)
followed by `GET K` replies `+OK` then a bulk string with payload `V`.
On the code, the `SET` turn replies `+OK` and stores the record with
`expire_at = None`, but the `GET` turn flushes zero bytes: `do_action`
falls through without invoking the `GET` callback for a record whose
`expire_at` is `None`, so no reply frame at all is written — contradicting
the claim at `K = "k"`, `V = "v"`. -/
theorem c1_set_then_get_writes_no_reply :
    processCommand { name := "SET", args := ["k", "v"] }
        { state := .exec, commands := none } [] 0 infoArb =
      .ok ({ state := .exec, commands := none },
           [("k", { val := "v", expireAt := none })], "+OK\r\n") ∧
    processCommand { name := "GET", args := ["k"] }
        { state := .exec, commands := none }
        [("k", { val := "v", expireAt := none })] 1 infoArb =
      .ok ({ state := .exec, commands := none },
           [("k", { val := "v", expireAt := none })], "") ∧
    "" ≠ respWrite (.bulkString "v") :=
  ⟨rfl, rfl, by decide⟩

/-- C2: the claim states that `INCR K` on a record whose payload is the
decimal string of `n` replies `:(n+1)` and stores `str(n+1)`.  On the
code, for a record with `expire_at = None` (payload `"5"`, so `n = 5`),
`do_action` never invokes the `INCR` callback, `incr_result` keeps its
initial `Ok(0)`, and the handler replies `:0` and stores payload `"0"` —
not `:6` / `"6"`. -/
theorem c2_incr_on_no_expiry_returns_zero :
    processCommand { name := "INCR", args := ["n"] }
        { state := .exec, commands := none }
        [("n", { val := "5", expireAt := none })] 0 infoArb =
      .ok ({ state := .exec, commands := none },
           [("n", { val := "0", expireAt := none })], ":0\r\n") ∧
    (":0\r\n" : String) ≠ ":6\r\n" ∧ ("0" : String) ≠ "6" :=
  ⟨rfl, by decide, by decide⟩

/-- C3 counterexample: the claim states that a successful `INCR` on a
record with a not-yet-reached `expire_at` leaves `expire_at` unchanged.
At the record `{val := "5", expire_at := Some 100}` with `now = 50`, the
code replies `:6` but stores a fresh record with `expire_at = None`
(`KvItem::new(num.to_string(), None)`), clearing the expiration. -/
theorem c3_incr_clears_expiry_cex :
    processCommand { name := "INCR", args := ["k"] }
        { state := .exec, commands := none }
        [("k", { val := "5", expireAt := some 100 })] 50 infoArb =
      .ok ({ state := .exec, commands := none },
           [("k", { val := "6", expireAt := none })], ":6\r\n") ∧
    KvItem.expireAt { val := "6", expireAt := none } ≠ some 100 :=
  ⟨rfl, by decide⟩

/-- C3 amended: a successful `INCR K` on a live record whose payload
parses as a signed 64-bit integer `n` with `n + 1` still in the `i64`
range replies `:(n+1)` and *replaces* the record by one with
`expire_at = None` — the existing expiration is cleared, not preserved.
(At the single out-of-range point `n = i64::MAX` the increment itself
overflows — debug panic or release wrap — so no reply is asserted there.) -/
theorem c3_amended_incr_clears_expiry (store : Store) (key : String)
    (it : KvItem) (cmds : Option (List Command)) (now exp : Nat) (num : Int)
    (args' : List String) (info : ServerInfo)
    (hget : storeGet store key = some it)
    (hexp : it.expireAt = some exp) (hfut : now < exp)
    (hnum : rustParseI64? it.val = some num)
    (hov : num < 2 ^ 63 - 1) :
    processCommand { name := "INCR", args := key :: args' }
        { state := .exec, commands := cmds } store now info =
      .ok ({ state := .exec, commands := cmds },
           storeInsert store key { val := toString (num + 1), expireAt := none },
           respWrite (.integer (num + 1))) ∧
    storeGet (storeInsert store key { val := toString (num + 1), expireAt := none }) key =
      some { val := toString (num + 1), expireAt := none } := by
  have hrange := rustParseI64?_range it.val num hnum
  have hwrap : wrapI64 (num + 1) = num + 1 :=
    wrapI64_eq_of_range (num + 1) (by omega) (by omega)
  constructor
  · have hact :
        doAction store now key incrAction (Except.ok 0) =
          (true, Except.ok (num + 1), storeInsert store key it) := by
      simp [doAction, hget, hexp, hfut, incrAction, hnum, hwrap]
    simp [processCommand, execCommand, hact, KvItem.new, storeInsert_storeInsert]
  · exact storeGet_storeInsert store key _

/-- C3 amended witness: the amended statement at the concrete record
`{val := "5", expire_at := Some 100}`, `now = 50`. -/
theorem c3_amended_witness :
    processCommand { name := "INCR", args := ["k"] }
        { state := .exec, commands := none }
        [("k", { val := "5", expireAt := some 100 })] 50 infoArb =
      .ok ({ state := .exec, commands := none },
           storeInsert [("k", { val := "5", expireAt := some 100 })] "k"
             { val := toString ((5 : Int) + 1), expireAt := none },
           respWrite (.integer ((5 : Int) + 1))) ∧
    storeGet (storeInsert [("k", { val := "5", expireAt := some 100 })] "k"
        { val := toString ((5 : Int) + 1), expireAt := none }) "k" =
      some { val := toString ((5 : Int) + 1), expireAt := none } :=
  c3_amended_incr_clears_expiry [("k", { val := "5", expireAt := some 100 })] "k"
    { val := "5", expireAt := some 100 } none 50 100 5 [] infoArb rfl rfl
    (by decide) rfl (by decide)

/-- C4 counterexample: the claim states that `MULTI` in `QUEUE` mode
replies `-ERR MULTI calls can not be nested`, leaves the queue unchanged
and stays in `QUEUE` mode.  On the code, `MULTI` falls into the default
branch of `queue_command`: it is appended to the queue and the reply is
`+QUEUED`. -/
theorem c4_nested_multi_cex :
    processCommand { name := "MULTI", args := [] }
        { state := .queue, commands := some [{ name := "PING", args := [] }] }
        [] 0 infoArb =
      .ok ({ state := .queue,
             commands := some [{ name := "PING", args := [] },
                               { name := "MULTI", args := [] }] },
           [], "+QUEUED\r\n") ∧
    ("+QUEUED\r\n" : String) ≠ respWrite (.simpleError "ERR MULTI calls can not be nested") ∧
    (some [Command.mk "PING" [], Command.mk "MULTI" []] ≠ some [Command.mk "PING" []]) :=
  ⟨rfl, by decide, by decide⟩

/-- C4 amended: in `QUEUE` mode a `MULTI` command is appended to the
transaction queue, the reply is `+QUEUED`, and the session stays in
`QUEUE` mode. -/
theorem c4_amended_nested_multi_queued (args : List String) (q : List Command)
    (store : Store) (now : Nat) (info : ServerInfo) :
    processCommand { name := "MULTI", args := args }
        { state := .queue, commands := some q } store now info =
      .ok ({ state := .queue, commands := some (q ++ [{ name := "MULTI", args := args }]) },
           store, respWrite (.simpleString "QUEUED")) :=
  rfl

/-- C6: the claim states that `INFO` with a section other than
`replication` replies `-ERR unsupported INFO section` and the session
continues.  On the code, that branch is `todo!("other section for INFO
command: {}", section)`: the handler panics, the session dies, and no
reply is written. -/
theorem c6_info_unknown_section_panics :
    processCommand { name := "INFO", args := ["server"] }
        { state := .exec, commands := none } [] 0 infoArb =
      .error "other section for INFO command: server" ∧
    (Except.error "other section for INFO command: server" :
        Except String (Session × Store × String)) ≠
      .ok ({ state := .exec, commands := none }, [],
           respWrite (.simpleError "ERR unsupported INFO section")) :=
  ⟨rfl, fun h => Except.noConfusion h⟩

/-- Helper: `EXEC` in `QUEUE` mode is the array header for the queue
length followed by the replay of the queued commands, after which the
queue is dropped and the state is `Exec`. -/
theorem processCommand_queue_exec (args : List String) (q : List Command)
    (store : Store) (now : Nat) (info : ServerInfo) :
    processCommand { name := "EXEC", args := args }
        { state := .queue, commands := some q } store now info =
      (match replay q store now info with
       | .ok (out, store') =>
         .ok ({ state := .exec, commands := none }, store',
              respWrite (.arrayHeader q.length) ++ out)
       | .error e => .error e) :=
  rfl

/-- C7 counterexample: the claim quantifies over every queue of K
commands, but a queue may hold `INFO server` (any non-EXEC/DISCARD
command is queued verbatim), and its replay hits the `todo!` panic: the
session dies and nothing is flushed — the `*1` header sits in the
never-flushed buffer — so no array header, no replies, and no live
transition to `EXEC` mode occur. -/
theorem c7_exec_panicking_replay_cex :
    processCommand { name := "EXEC", args := [] }
        { state := .queue,
          commands := some [{ name := "INFO", args := ["server"] }] }
        [] 0 infoArb =
      .error "other section for INFO command: server" ∧
    (Except.error "other section for INFO command: server" :
        Except String (Session × Store × String)) ≠
      .ok ({ state := .exec, commands := none }, [],
           respWrite (.arrayHeader 1)) :=
  ⟨rfl, fun h => Except.noConfusion h⟩

/-- C7 amended: in `QUEUE` mode with a queue of `K` commands whose replay
completes without a panic (hypothesis `h`), `EXEC` writes the array
header `*K`, then appends the replies of the queued commands replayed in
enqueue order (`replay` is the in-order fold of `exec_command`), clears
the queue and moves the session to `EXEC` mode; for `K = 0` the output is
still `*0\r\n`.  A queue whose replay panics kills the session with no
output (see the counterexample). -/
theorem c7_exec_replays_queue_in_order (args : List String) (q : List Command)
    (store store' : Store) (now : Nat) (info : ServerInfo) (out : String)
    (h : replay q store now info = .ok (out, store')) :
    processCommand { name := "EXEC", args := args }
        { state := .queue, commands := some q } store now info =
      .ok ({ state := .exec, commands := none }, store',
           respWrite (.arrayHeader q.length) ++ out) := by
  rw [processCommand_queue_exec, h]

/-- C7 witness: the empty queue; `*0\r\n` is still written. -/
theorem c7_witness :
    processCommand { name := "EXEC", args := [] }
        { state := .queue, commands := some [] } [] 0 infoArb =
      .ok ({ state := .exec, commands := none }, [],
           respWrite (.arrayHeader 0) ++ "") :=
  c7_exec_replays_queue_in_order [] [] [] [] 0 infoArb "" rfl

/-- C8: processing any non-`EXEC` command while in `QUEUE` mode returns
the keyspace unchanged (the queueing path, `queue_command`, does not even
receive the keyspace), and the keyspace after `EXEC` is exactly the one
produced by replaying the queued commands — the header write itself
touches nothing. -/
theorem c8_queue_mode_never_touches_keyspace (cmd : Command) (q : List Command)
    (store : Store) (now : Nat) (info : ServerInfo)
    (hne : cmd.name ≠ "EXEC") :
    (∃ sess' out,
      processCommand cmd { state := .queue, commands := some q } store now info =
        .ok (sess', store, out)) ∧
    processCommand { name := "EXEC", args := [] }
        { state := .queue, commands := some q } store now info =
      (match replay q store now info with
       | .ok (out, store') =>
         .ok ({ state := .exec, commands := none }, store',
              respWrite (.arrayHeader q.length) ++ out)
       | .error e => .error e) := by
  constructor
  · by_cases hd : cmd.name = "DISCARD"
    · refine ⟨{ state := .exec, commands := none }, respWrite (.simpleString "OK"), ?_⟩
      simp [processCommand, queueCommand, hne, hd]
    · refine ⟨{ state := .queue, commands := some (q ++ [cmd]) },
              respWrite (.simpleString "QUEUED"), ?_⟩
      simp [processCommand, queueCommand, hne, hd]
  · exact processCommand_queue_exec [] q store now info

/-- C8 witness: queueing `PING` on a nonempty keyspace leaves it intact. -/
theorem c8_witness :
    (∃ sess' out,
      processCommand { name := "PING", args := [] }
          { state := .queue, commands := some [] }
          [("k", { val := "v", expireAt := none })] 0 infoArb =
        .ok (sess', [("k", { val := "v", expireAt := none })], out)) ∧
    processCommand { name := "EXEC", args := [] }
        { state := .queue, commands := some [] }
        [("k", { val := "v", expireAt := none })] 0 infoArb =
      (match replay [] [("k", { val := "v", expireAt := none })] 0 infoArb with
       | .ok (out, store') =>
         .ok ({ state := .exec, commands := none }, store',
              respWrite (.arrayHeader (List.length ([] : List Command))) ++ out)
       | .error e => .error e) :=
  c8_queue_mode_never_touches_keyspace { name := "PING", args := [] } []
    [("k", { val := "v", expireAt := none })] 0 infoArb (by decide)

/-- C9: the claim states that an element declared `$0\r\n\r\n` is accepted
as an empty argument and the rest of the frame still parses.  On the code,
the `len == 0` branch `continue`s without consuming the element's
terminating `\r\n`; the next loop iteration reads that `\r\n` as an
element-leader line, which does not start with `$`, and hits the `todo!`
panic — the frame `*3 SET <empty> v` kills the session instead of
decoding `SET` with an empty second argument. -/
theorem c9_empty_bulk_breaks_frame :
    readCommand ("*3\r\n$3\r\nSET\r\n$0\r\n\r\n$1\r\nv\r\n".toList) =
      .error "todo: Unsupported command format" ∧
    (Except.error "todo: Unsupported command format" :
        Except String (Command × List Char)) ≠
      .ok ({ name := "SET", args := ["", "v"] }, []) :=
  ⟨rfl, fun h => Except.noConfusion h⟩

/-- C5 counterexample: the claim states that every well-formed frame whose
declared lengths are honored decodes to the command whose args are the
elements byte-for-byte, even with spaces in a payload.  The well-formed
frame `*2 / $4 ECHO / $3 "a b"` decodes to args `["a", "b"]`, not
`["a b"]`: `Command::from_str` re-splits the accumulated buffer on
whitespace. -/
theorem c5_parser_splits_on_space_cex :
    encodeFrame [['E', 'C', 'H', 'O'], ['a', ' ', 'b']] =
      "*2\r\n$4\r\nECHO\r\n$3\r\na b\r\n".toList ∧
    readCommand ("*2\r\n$4\r\nECHO\r\n$3\r\na b\r\n".toList) =
      .ok ({ name := "ECHO", args := ["a", "b"] }, []) ∧
    (["a", "b"] : List String) ≠ ["a b"] := by
  refine ⟨?_, rfl, by decide⟩
  simp [encodeFrame, encodeBulk, natToDec, decDigit, crlf]

/-- C5 amended: for every well-formed frame whose elements are nonempty
and contain no whitespace byte (in particular no `\r`, `\n`, space, tab),
the frame reader decodes it to the `Command` whose name is element 0
uppercased and whose args are elements 1..N-1 byte-for-byte, consuming
the whole frame.  Payloads containing whitespace or declared empty are
not decoded faithfully (see the counterexample and C9). -/
theorem c5_amended_reader_roundtrip_ws_free (e0 : List Char)
    (rest : List (List Char))
    (h0 : e0 ≠ [] ∧ ∀ c ∈ e0, isWS c = false)
    (hrest : ∀ e ∈ rest, e ≠ [] ∧ ∀ c ∈ e, isWS c = false)
    (hsz : ∀ e ∈ e0 :: rest, e.length < 2 ^ 64)
    (hn : (e0 :: rest).length < 2 ^ 64) :
    readCommand (encodeFrame (e0 :: rest)) =
      .ok ({ name := rustToUppercase (String.mk e0),
             args := rest.map String.mk }, []) := by
  have hgoodall : ∀ e ∈ e0 :: rest,
      (e ≠ [] ∧ ∀ c ∈ e, isWS c = false) ∧ e.length < 2 ^ 64 := by
    intro e he
    rcases List.mem_cons.mp he with he | he
    · subst he; exact ⟨h0, hsz _ (List.mem_cons_self _ _)⟩
    · exact ⟨hrest e he, hsz e (List.mem_cons_of_mem _ he)⟩
  have hnl1 : ∀ c ∈ '*' :: natToDec (e0 :: rest).length, c ≠ '\n' := by
    intro c hc
    rcases List.mem_cons.mp hc with hc | hc
    · subst hc; decide
    · exact isDigitC_ne_nl c (natToDec_digits _ c hc)
  have hframe : encodeFrame (e0 :: rest) =
      ('*' :: natToDec (e0 :: rest).length) ++ '\r' :: '\n' ::
        (((e0 :: rest).map encodeBulk).flatten) := by
    simp [encodeFrame, crlf, List.append_assoc]
  have hL : readLine (('*' :: natToDec (e0 :: rest).length) ++ '\r' :: '\n' ::
      (((e0 :: rest).map encodeBulk).flatten)) =
      ('*' :: (natToDec (e0 :: rest).length ++ ['\r', '\n']),
       ((e0 :: rest).map encodeBulk).flatten) :=
    readLine_crlf _ _ hnl1
  have hT : trimEndL ('*' :: (natToDec (e0 :: rest).length ++ ['\r', '\n'])) =
      '*' :: natToDec (e0 :: rest).length := by
    have h1 := trimEndL_append_ws ('*' :: natToDec (e0 :: rest).length)
      ['\r', '\n'] (by decide)
    rw [show trimEndL ('*' :: (natToDec (e0 :: rest).length ++ ['\r', '\n'])) =
        trimEndL (('*' :: natToDec (e0 :: rest).length) ++ ['\r', '\n']) from rfl, h1]
    refine trimEndL_no_ws _ ?_
    intro c hc
    rcases List.mem_cons.mp hc with hc | hc
    · subst hc; decide
    · exact isDigitC_not_isWS c (natToDec_digits _ c hc)
  have hRE := readElems_encode (e0 :: rest) [] hgoodall
    ('*' :: (natToDec (e0 :: rest).length ++ ['\r', '\n']))
  rw [List.append_nil] at hRE
  have htoks : ∀ t ∈ ('*' :: natToDec (e0 :: rest).length) :: e0 :: rest,
      t ≠ [] ∧ ∀ c ∈ t, isWS c = false := by
    intro t ht
    rcases List.mem_cons.mp ht with ht | ht
    · subst ht
      refine ⟨by simp, ?_⟩
      intro c hc
      rcases List.mem_cons.mp hc with hc | hc
      · subst hc; decide
      · exact isDigitC_not_isWS c (natToDec_digits _ c hc)
    · rcases List.mem_cons.mp ht with ht | ht
      · subst ht; exact h0
      · exact hrest t ht
  have hsplit' : splitWS (('*' :: (natToDec (e0 :: rest).length ++ ['\r', '\n'])) ++
      (((e0 :: rest).map (fun e => e ++ crlf)).flatten)) =
      ('*' :: natToDec (e0 :: rest).length) :: e0 :: rest :=
    splitWSGo_tokens (('*' :: natToDec (e0 :: rest).length) :: e0 :: rest) htoks
  have hFS : fromStr (('*' :: (natToDec (e0 :: rest).length ++ ['\r', '\n'])) ++
      (((e0 :: rest).map (fun e => e ++ crlf)).flatten)) =
      .ok { name := rustToUppercase (String.mk e0), args := rest.map String.mk } := by
    unfold fromStr
    rw [splitWS_rustTrimL, hsplit']
  rw [hframe]
  unfold readCommand
  rw [hL]
  simp only [hT]
  rw [rustParseU64L_natToDec _ hn]
  simp only [hRE, hFS]

/-- C5 amended witness: the one-element frame `*1 / $4 PING` decodes to
the `PING` command. -/
theorem c5_amended_witness :
    readCommand (encodeFrame [['P', 'I', 'N', 'G']]) =
      .ok ({ name := rustToUppercase (String.mk ['P', 'I', 'N', 'G']),
             args := [] }, []) :=
  c5_amended_reader_roundtrip_ws_free ['P', 'I', 'N', 'G'] []
    ⟨by decide, by decide⟩ (by intro e he; simp at he)
    (by intro e he; simp at he; subst he; decide) (by decide)

/-- C10: `KvStore::do_action` invokes its callback only for an absent key
or for a record with a still-future expiration.  A record with
`expire_at = None`, exactly like an already-expired record, gets no
callback invocation at all (the result state equals the input state `s`
for *every* callback) and the function returns `false` leaving the map
unchanged. -/
theorem c10_doAction_callback_discipline {σ : Type}
    (store : Store) (key : String) (now : Nat)
    (cb : String → Option KvItem → σ → σ × Option KvItem) (s : σ) :
    (∀ it, storeGet store key = some it → it.expireAt = none →
      doAction store now key cb s = (false, s, store)) ∧
    (∀ it exp, storeGet store key = some it → it.expireAt = some exp → exp ≤ now →
      doAction store now key cb s = (false, s, store)) ∧
    (storeGet store key = none →
      doAction store now key cb s = (true, (cb key none s).1, store)) ∧
    (∀ it exp, storeGet store key = some it → it.expireAt = some exp → now < exp →
      doAction store now key cb s =
        (true, (cb key (some it) s).1,
         storeInsert store key ((cb key (some it) s).2.getD it))) := by
  refine ⟨?_, ?_, ?_, ?_⟩
  · intro it hget hnone
    simp [doAction, hget, hnone]
  · intro it exp hget hexp hle
    have hnl : ¬now < exp := by omega
    simp [doAction, hget, hexp, hnl]
  · intro hnone
    simp [doAction, hnone]
  · intro it exp hget hexp hfut
    simp [doAction, hget, hexp, hfut]

/-- C10 witness: a record with `expire_at = None` and a counting callback;
the callback is not run and the map survives. -/
theorem c10_witness :
    doAction [("k", { val := "v", expireAt := none })] 0 "k"
        (fun _ _ n => (n + 1, (none : Option KvItem))) (0 : Nat) =
      (false, 0, [("k", { val := "v", expireAt := none })]) :=
  (c10_doAction_callback_discipline [("k", { val := "v", expireAt := none })] "k" 0
    (fun _ _ n => (n + 1, (none : Option KvItem))) 0).1
    { val := "v", expireAt := none } rfl rfl
